import Mathlib

/-!
# Verification of the relay chat server (`src/server/server.py`)

This file is a shallow embedding of the session-management and
message-routing core of the server: the module-level dictionaries
`clients` (username → socket) and `pairs` (username → partner username),
the helper functions `cleanup_user`, `set_pair`, `get_partner`,
`get_socket`, `list_users`, and the per-connection handler
`handle_client` (its entry protocol, its command dispatch loop body, and
its `finally` teardown).

Python dictionaries are modelled as association lists with unique keys:
`dictGet` is `d.get(k)`, `dictPop` is `d.pop(k, None)` (discarding the
returned value), and `dictSet` is `d[k] = v`.  Insertion order of a
Python dict is observable only through iteration; the only iteration the
server performs is `clients.keys()` inside `list_users`, whose result is
immediately sorted, so the association-list representation (which moves
an updated key to the front) is observationally faithful.

Sockets are modelled by opaque numeric identifiers.  `send_line` never
raises (it swallows exceptions), so a send is modelled as appending a
`(socket, text)` pair to an output list; `safe_close` is modelled as
appending the socket to a closed list.
-/

/-- A connection handle (`socket.socket` in the source), identified opaquely. -/
abbrev Sock := Nat

/-- The whitespace characters of Python's `str.strip` / `str.split`
(restricted to the ASCII whitespace that can occur on a protocol line). -/
def isWsp (c : Char) : Bool := c = ' ' ∨ c = '\t' ∨ c = '\n' ∨ c = '\r'

/-- Python `t.strip()`: remove leading and trailing whitespace. -/
def pyStrip (t : String) : String :=
  String.mk (((t.toList.dropWhile isWsp).reverse.dropWhile isWsp).reverse)

/-- Lowercasing of one character, as Python `str.lower` acts on ASCII. -/
def charLower (c : Char) : Char :=
  if 'A'.toNat ≤ c.toNat ∧ c.toNat ≤ 'Z'.toNat then Char.ofNat (c.toNat + 32) else c

/-- Python `t.lower()` (on the ASCII command tokens the dispatcher compares). -/
def pyLower (t : String) : String := String.mk (t.toList.map charLower)

/-- Python `msg.startswith("/")`. -/
def startsSlash (msg : String) : Bool :=
  match msg.toList with
  | c :: _ => c = '/'
  | [] => false

/-- Lexicographic comparison of character lists by code point, the order
Python's `sorted` uses on strings. -/
def lexLe : List Char → List Char → Bool
  | [], _ => true
  | _ :: _, [] => false
  | a :: as, b :: bs =>
      if a.toNat < b.toNat then true
      else if b.toNat < a.toNat then false
      else lexLe as bs

/-- Lexicographic order on strings (Python string comparison). -/
def strLe (a b : String) : Prop := lexLe a.toList b.toList = true

instance : DecidableRel strLe := fun a b => by unfold strLe; infer_instance

/-- `d.get(k)`: first binding of `k` in the association list, if any. -/
def dictGet (d : List (String × α)) (k : String) : Option α :=
  (d.find? (fun p => p.1 = k)).map (·.2)

/-- `d.pop(k, None)` (value discarded): remove the binding of `k`. -/
def dictPop (d : List (String × α)) (k : String) : List (String × α) :=
  d.filter (fun p => p.1 ≠ k)

/-- `d[k] = v`: bind `k` to `v` (replacing any previous binding). -/
def dictSet (d : List (String × α)) (k : String) (v : α) : List (String × α) :=
  (k, v) :: dictPop d k

/-- `d.keys()`. -/
def dictKeys (d : List (String × α)) : List String :=
  d.map Prod.fst

/-- The server's shared mutable state: the two module-level dictionaries
`clients` (username → socket) and `pairs` (username → partner username),
both protected by the single `clients_lock`. -/
structure ServerState where
  clients : List (String × Sock)
  pairs : List (String × String)
deriving Repr, DecidableEq

/-- The state at server start: both dictionaries empty. -/
def initState : ServerState := ⟨[], []⟩

/-- The observable effect of one operation: the resulting shared state, the
lines passed to `send_line` (socket, text) in order, and the sockets passed
to `safe_close` in order. -/
structure Effect where
  state : ServerState
  sent : List (Sock × String)
  closed : List Sock
deriving Repr, DecidableEq

/-- `get_partner(username)` (server.py lines 55–57). -/
def get_partner (s : ServerState) (username : String) : Option String :=
  dictGet s.pairs username

/-- `get_socket(username)` (server.py lines 60–62). -/
def get_socket (s : ServerState) (username : String) : Option Sock :=
  dictGet s.clients username

/-- `list_users(except_name)` (server.py lines 65–67):
`sorted([u for u in clients.keys() if u != except_name])`. -/
def list_users (s : ServerState) (except_name : String) : List String :=
  List.insertionSort strLe ((dictKeys s.clients).filter (fun u => u ≠ except_name))

/-- `set_pair(a, b)` (server.py lines 49–52): installs `pairs[a] = b` then
`pairs[b] = a` under the lock. -/
def set_pair (s : ServerState) (a b : String) : ServerState :=
  ⟨s.clients, dictSet (dictSet s.pairs a b) b a⟩

/-- `cleanup_user(username)` (server.py lines 30–46): under the lock, pop the
user's socket and pairing entry; if the former partner's entry still points
back, pop it too and look up the partner's socket.  Outside the lock, notify
that partner (if found) and close the popped socket (if any). -/
def cleanup_user (s : ServerState) (username : String) : Effect :=
  let sock := dictGet s.clients username
  let clients1 := dictPop s.clients username
  let partner := dictGet s.pairs username
  let pairs1 := dictPop s.pairs username
  let step : List (String × String) × Option Sock :=
    match partner with
    | some p =>
        if dictGet pairs1 p = some username then
          (dictPop pairs1 p, dictGet clients1 p)
        else
          (pairs1, none)
    | none => (pairs1, none)
  { state := ⟨clients1, step.1⟩
    sent :=
      match step.2 with
      | some ps => [(ps, "[SERVER] " ++ username ++ " disconnected. Chat closed.")]
      | none => []
    closed :=
      match sock with
      | some sk => [sk]
      | none => [] }

/-- Python truthiness of an optional string (`if x:` where `x` is
`None` or a `str`): true iff present and non-empty. -/
def truthyStr : Option String → Bool
  | none => false
  | some x => x ≠ ""

/-- The old-partner unpair step of the `/chat` handler (server.py lines
134–139): if `get_partner(username)` is truthy, then under one lock
acquisition pop the old partner's entry when it points back at the sender,
and pop the sender's own entry.  This is a complete guarded region of its
own: the lock is released when it ends. -/
def chatUnpair (s : ServerState) (username : String) : ServerState :=
  match dictGet s.pairs username with
  | some op =>
      if op = "" then s
      else
        let pairs1 := if dictGet s.pairs op = some username then dictPop s.pairs op else s.pairs
        ⟨s.clients, dictPop pairs1 username⟩
  | none => s

/-- The `/chat` command handler (server.py lines 118–154), given the raw
argument string (`parts[1]` if present).  Sequential semantics: the guarded
sub-steps (`get_socket`, `get_partner`, the unpair block, the busy check,
`set_pair`) are executed in source order with no interference. -/
def handle_chat (s : ServerState) (username : String) (conn : Sock) (arg : Option String) :
    Effect :=
  match arg with
  | none => ⟨s, [(conn, "[SERVER] Usage: /chat <username>")], []⟩
  | some raw =>
      let target := pyStrip raw
      if target = "" then ⟨s, [(conn, "[SERVER] Usage: /chat <username>")], []⟩
      else if target = username then
        ⟨s, [(conn, "[SERVER] You can't chat with yourself.")], []⟩
      else
        match get_socket s target with
        | none => ⟨s, [(conn, "[SERVER] User '" ++ target ++ "' not found.")], []⟩
        | some target_sock =>
            let old_partner := get_partner s username
            let s1 := chatUnpair s username
            let sent1 : List (Sock × String) :=
              match old_partner with
              | some op =>
                  if op = "" then []
                  else
                    (match dictGet s.clients op with
                     | some ops => [(ops, "[SERVER] " ++ username ++ " left the chat.")]
                     | none => []) ++
                    [(conn, "[SERVER] Left previous chat with " ++ op ++ ".")]
              | none => []
            match dictGet s1.pairs target with
            | some tp =>
                if tp ≠ "" ∧ tp ≠ username then
                  ⟨s1, sent1 ++
                    [(conn, "[SERVER] '" ++ target ++ "' is already chatting with '" ++
                      tp ++ "'.")], []⟩
                else
                  ⟨set_pair s1 username target, sent1 ++
                    [(conn, "[SERVER] Chat started with " ++ target ++ "."),
                     (target_sock, "[SERVER] " ++ username ++
                       " started a chat with you. You are now connected.")], []⟩
            | none =>
                ⟨set_pair s1 username target, sent1 ++
                  [(conn, "[SERVER] Chat started with " ++ target ++ "."),
                   (target_sock, "[SERVER] " ++ username ++
                     " started a chat with you. You are now connected.")], []⟩

/-- The `/leave` command handler (server.py lines 156–170). -/
def handle_leave (s : ServerState) (username : String) (conn : Sock) : Effect :=
  match dictGet s.pairs username with
  | none => ⟨s, [(conn, "[SERVER] You're not in a chat.")], []⟩
  | some partner =>
      if partner = "" then ⟨s, [(conn, "[SERVER] You're not in a chat.")], []⟩
      else
        let pairs1 :=
          if dictGet s.pairs partner = some username then dictPop s.pairs partner else s.pairs
        let s1 : ServerState := ⟨s.clients, dictPop pairs1 username⟩
        let sentP : List (Sock × String) :=
          match dictGet s1.clients partner with
          | some ps => [(ps, "[SERVER] " ++ username ++ " left the chat.")]
          | none => []
        ⟨s1, sentP ++ [(conn, "[SERVER] You left the chat with " ++ partner ++ ".")], []⟩

/-- The `/users` command handler (server.py lines 111–116). -/
def handle_users (s : ServerState) (username : String) (conn : Sock) : Effect :=
  let users := list_users s username
  if users.isEmpty then
    ⟨s, [(conn, "[SERVER] No other users online.")], []⟩
  else
    ⟨s, [(conn, "[SERVER] Online: " ++ String.intercalate ", " users)], []⟩

/-- Routing of a plain (non-command) line (server.py lines 180–194). -/
def route_message (s : ServerState) (username : String) (conn : Sock) (msg : String) :
    Effect :=
  match dictGet s.pairs username with
  | none =>
      ⟨s, [(conn, "[SERVER] You're not in a chat. Use /users then /chat <username>.")], []⟩
  | some partner =>
      if partner = "" then
        ⟨s, [(conn, "[SERVER] You're not in a chat. Use /users then /chat <username>.")], []⟩
      else
        match dictGet s.clients partner with
        | none =>
            ⟨⟨s.clients, dictPop s.pairs username⟩,
              [(conn, "[SERVER] Partner disconnected. Chat closed.")], []⟩
        | some ps => ⟨s, [(ps, username ++ ": " ++ msg)], []⟩

/-- `line.rstrip("\n")`: drop trailing newline characters. -/
def rstripNl (line : String) : String :=
  String.mk ((line.toList.reverse.dropWhile (fun c => c = '\n')).reverse)

/-- `msg.split(maxsplit=1)` for a line that starts with a non-whitespace
character (the dispatcher only splits lines beginning with "/"): the first
whitespace-free token, and the remainder after the separating whitespace
run when that remainder is non-empty. -/
def splitMax1 (msg : String) : String × Option String :=
  let head := msg.toList.takeWhile (fun c => ¬ isWsp c)
  let rest := (msg.toList.drop head.length).dropWhile isWsp
  (String.mk head, if rest.isEmpty then none else some (String.mk rest))

/-- Whether the main loop continues or breaks after a line. -/
inductive LoopCtl where
  | cont
  | brk
deriving Repr, DecidableEq

/-- One iteration of `handle_client`'s main loop on a delivered line
(server.py lines 96–194): strip the trailing newline; ignore the result if
empty; dispatch a command if it starts with "/"; otherwise route it as a
chat message.  `/quit` breaks the loop. -/
def handle_line (s : ServerState) (username : String) (conn : Sock) (line : String) :
    Effect × LoopCtl :=
  let msg := rstripNl line
  if msg = "" then (⟨s, [], []⟩, .cont)
  else if startsSlash msg then
    let parts := splitMax1 msg
    let cmd := pyLower parts.1
    if cmd = "/users" then (handle_users s username conn, .cont)
    else if cmd = "/chat" then (handle_chat s username conn parts.2, .cont)
    else if cmd = "/leave" then (handle_leave s username conn, .cont)
    else if cmd = "/quit" then (⟨s, [(conn, "[SERVER] Bye.")], []⟩, .brk)
    else (⟨s, [(conn, "[SERVER] Unknown command.")], []⟩, .cont)
  else (route_message s username conn msg, .cont)

/-- The entry protocol of `handle_client` (server.py lines 75–94) combined
with the effect of its `finally` block (lines 199–203) when the protocol
returns early.  The second component is the identity under which the
connection proceeds to the main loop (`none` means the handler returned).

Note that `username` is assigned before the duplicate check, so on the
`already taken` early return the `finally` block runs
`cleanup_user(username)` — against the username held by the existing
session. -/
def handle_entry (s : ServerState) (rawName : String) (conn : Sock) :
    Effect × Option String :=
  let username := pyStrip rawName
  if username = "" then
    (⟨s, [(conn, "[SERVER] Empty username. Bye.")], [conn]⟩, none)
  else
    match dictGet s.clients username with
    | some _ =>
        let c := cleanup_user s username
        (⟨c.state, (conn, "[SERVER] Username already taken. Bye.") :: c.sent, c.closed⟩, none)
    | none =>
        (⟨⟨dictSet s.clients username conn, s.pairs⟩,
          [(conn, "[SERVER] Hello " ++ username ++ "!"),
           (conn, "[SERVER] Commands:"),
           (conn, "  /users                -> list online users"),
           (conn, "  /chat <username>      -> start chat with user"),
           (conn, "  /leave                -> leave current chat"),
           (conn, "  /quit                 -> disconnect"),
           (conn, "[SERVER] Tip: after /chat, just type messages normally.")], []⟩,
         some username)

/-- One shared-state operation of the server, as issued by some connection
worker: a connection attempt supplying a name, a `/chat` command, a `/leave`
command, a plain chat line, or the `finally`-block teardown.  The command
operations carry the identity under which the issuing worker entered its
main loop; the code never re-checks that this identity is still registered. -/
inductive Op where
  | connect (rawName : String) (conn : Sock)
  | chat (username : String) (conn : Sock) (arg : String)
  | leave (username : String) (conn : Sock)
  | message (username : String) (conn : Sock) (msg : String)
  | teardown (username : String)
deriving Repr, DecidableEq

/-- The shared-state change each operation performs (its sends and closes
do not touch the Registry or the Pairing Table). -/
def applyOp (s : ServerState) : Op → ServerState
  | .connect n c => (handle_entry s n c).1.state
  | .chat u c a => (handle_chat s u c (some a)).state
  | .leave u c => (handle_leave s u c).state
  | .message u c m => (route_message s u c m).state
  | .teardown u => (cleanup_user s u).state

/-- Running a sequence of operations from server start. -/
def runOps (ops : List Op) : ServerState :=
  ops.foldl applyOp initState

/-- A state is reachable when some sequence of the server's operations
produces it from the empty initial state. -/
def ReachableFree (s : ServerState) : Prop :=
  ∃ ops, runOps ops = s

/-- Reachability under the registration discipline: a `/chat`, `/leave` or
plain-message operation is only issued by a worker whose identity is
currently registered.  (The code itself does not enforce this: after the
duplicate-registration path runs `cleanup_user` on a live user's name, that
user's worker keeps issuing commands although its identity is gone.) -/
inductive ReachableReg : ServerState → Prop where
  | init : ReachableReg initState
  | connect (s : ServerState) (n : String) (c : Sock) :
      ReachableReg s → ReachableReg (applyOp s (.connect n c))
  | chat (s : ServerState) (u : String) (c : Sock) (a : String) :
      ReachableReg s → dictGet s.clients u ≠ none →
      ReachableReg (applyOp s (.chat u c a))
  | leave (s : ServerState) (u : String) (c : Sock) :
      ReachableReg s → dictGet s.clients u ≠ none →
      ReachableReg (applyOp s (.leave u c))
  | message (s : ServerState) (u : String) (c : Sock) (m : String) :
      ReachableReg s → dictGet s.clients u ≠ none →
      ReachableReg (applyOp s (.message u c m))
  | teardown (s : ServerState) (u : String) :
      ReachableReg s → ReachableReg (applyOp s (.teardown u))

/-- Well-formedness of the shared state: the pairing table is symmetric,
every partner named in it is registered, nobody is paired with themselves,
and the empty string (always rejected at entry) is not a registered name. -/
def PairInv (s : ServerState) : Prop :=
  (∀ A B, dictGet s.pairs A = some B →
      dictGet s.pairs B = some A ∧ dictGet s.clients B ≠ none ∧ A ≠ B)
  ∧ dictGet s.clients "" = none

/-- A concrete mid-session state used to evaluate the handlers: five
registered users, `alice` paired with `carol` and `bob` paired with `dave`
(`eve` unpaired).  Reached, for instance, by five registrations followed by
`/chat carol` from `alice` and `/chat dave` from `bob`. -/
def stFive : ServerState :=
  ⟨[("alice", 1), ("carol", 2), ("bob", 3), ("dave", 4), ("eve", 5)],
   [("alice", "carol"), ("carol", "alice"), ("bob", "dave"), ("dave", "bob")]⟩

/-- The operation sequence behind the pairing-symmetry counterexample:
`alice` and `bob` register; a second connection supplies the name `alice`
and is rejected, but its `finally` block runs `cleanup_user("alice")`,
removing the live `alice` from the Registry; `alice`'s worker (which never
re-checks its registration) then issues `/chat bob`, installing the pair;
finally a plain message from `bob` finds `alice` gone and pops only
`bob`'s side of the pairing. -/
def symTrace : List Op :=
  [.connect "alice" 1, .connect "bob" 2, .connect "alice" 3,
   .chat "alice" 1 "bob", .message "bob" 2 "hi"]

/-!
## Dictionary lemmas
-/

theorem dictGet_cons (a : String) (b : α) (t : List (String × α)) (k : String) :
    dictGet ((a, b) :: t) k = if a = k then some b else dictGet t k := by
  by_cases h : a = k <;> simp [dictGet, List.find?, h]

theorem dictPop_cons (a : String) (b : α) (t : List (String × α)) (k : String) :
    dictPop ((a, b) :: t) k = if a = k then dictPop t k else (a, b) :: dictPop t k := by
  by_cases h : a = k <;> simp [dictPop, List.filter_cons, h]

theorem dictGet_pop (d : List (String × α)) (k k' : String) :
    dictGet (dictPop d k) k' = if k' = k then none else dictGet d k' := by
  induction d with
  | nil => by_cases h : k' = k <;> simp [dictGet, dictPop, h]
  | cons hd tl ih =>
    obtain ⟨a, b⟩ := hd
    rw [dictPop_cons]
    by_cases h : a = k
    · rw [if_pos h, ih, dictGet_cons]
      by_cases h2 : k' = k
      · simp [h2]
      · rw [if_neg h2, if_neg h2, if_neg (fun hh : a = k' => h2 (hh ▸ h))]
    · rw [if_neg h, dictGet_cons, dictGet_cons, ih]
      by_cases h2 : a = k'
      · rw [if_pos h2, if_pos h2, if_neg (fun hh : k' = k => h (h2.trans hh))]
      · rw [if_neg h2, if_neg h2]

theorem dictGet_set (d : List (String × α)) (k k' : String) (v : α) :
    dictGet (dictSet d k v) k' = if k = k' then some v else dictGet d k' := by
  rw [dictSet, dictGet_cons]
  by_cases h : k = k'
  · rw [if_pos h, if_pos h]
  · rw [if_neg h, if_neg h, dictGet_pop, if_neg (fun hh : k' = k => h hh.symm)]

theorem dictPop_noop (d : List (String × α)) (k : String) (h : dictGet d k = none) :
    dictPop d k = d := by
  induction d with
  | nil => rfl
  | cons hd tl ih =>
    obtain ⟨a, b⟩ := hd
    rw [dictGet_cons] at h
    by_cases h2 : a = k
    · rw [if_pos h2] at h; exact absurd h (by simp)
    · rw [if_neg h2] at h
      rw [dictPop_cons, if_neg h2, ih h]

theorem mem_dictKeys_iff (d : List (String × α)) (k : String) :
    k ∈ dictKeys d ↔ dictGet d k ≠ none := by
  induction d with
  | nil => simp [dictKeys, dictGet]
  | cons hd tl ih =>
    obtain ⟨a, b⟩ := hd
    simp only [dictKeys, List.map_cons, List.mem_cons, dictGet_cons] at ih ⊢
    by_cases h : a = k
    · simp [h]
    · have h' : ¬ k = a := fun hh => h hh.symm
      simp [h, h', ih]

/-!
## Helper lemmas
-/

theorem dictGet_pop_self (d : List (String × α)) (k : String) :
    dictGet (dictPop d k) k = none := by
  rw [dictGet_pop, if_pos rfl]

theorem dictPop_comm (d : List (String × α)) (a b : String) :
    dictPop (dictPop d a) b = dictPop (dictPop d b) a := by
  induction d with
  | nil => rfl
  | cons hd tl ih =>
      obtain ⟨k, v⟩ := hd
      by_cases ha : k = a
      · by_cases hb : k = b
        · have hab : a = b := ha.symm.trans hb
          subst hab
          simp [dictPop_cons, ha]
        · have hab : ¬ a = b := fun hh => hb (ha.trans hh)
          simp [dictPop_cons, ha, hb, hab, fun hh : b = a => hab hh.symm, ih]
      · by_cases hb : k = b
        · have hba : ¬ b = a := fun hh => ha (hb.trans hh)
          simp [dictPop_cons, ha, hb, hba, fun hh : a = b => hba hh.symm, ih]
        · simp [dictPop_cons, ha, hb, ih]

theorem lexLe_total (as bs : List Char) : lexLe as bs = true ∨ lexLe bs as = true := by
  induction as generalizing bs with
  | nil => left; rfl
  | cons a tl ih =>
    cases bs with
    | nil => right; rfl
    | cons b bs =>
      by_cases h1 : a.toNat < b.toNat
      · left; simp [lexLe, h1]
      · by_cases h2 : b.toNat < a.toNat
        · right; simp [lexLe, h2]
        · rcases ih bs with h | h
          · left; simp [lexLe, h1, h2, h]
          · right; simp [lexLe, h1, h2, h]

theorem lexLe_trans (as bs cs : List Char)
    (h1 : lexLe as bs = true) (h2 : lexLe bs cs = true) : lexLe as cs = true := by
  induction as generalizing bs cs with
  | nil => rfl
  | cons a tl ih =>
    cases bs with
    | nil => simp [lexLe] at h1
    | cons b bs =>
      cases cs with
      | nil => simp [lexLe] at h2
      | cons c cs =>
        simp only [lexLe] at h1 h2 ⊢
        by_cases hab : a.toNat < b.toNat
        · by_cases hbc : b.toNat < c.toNat
          · simp [show a.toNat < c.toNat by omega]
          · by_cases hcb : c.toNat < b.toNat
            · simp [hbc, hcb] at h2
            · simp [show a.toNat < c.toNat by omega]
        · by_cases hba : b.toNat < a.toNat
          · simp [hab, hba] at h1
          · by_cases hbc : b.toNat < c.toNat
            · simp [show a.toNat < c.toNat by omega]
            · by_cases hcb : c.toNat < b.toNat
              · simp [hbc, hcb] at h2
              · have hac1 : ¬ a.toNat < c.toNat := by omega
                have hac2 : ¬ c.toNat < a.toNat := by omega
                simp [hab, hba] at h1
                simp [hbc, hcb] at h2
                simp [hac1, hac2, ih bs cs h1 h2]

instance : IsTotal String strLe :=
  ⟨fun a b => lexLe_total a.toList b.toList⟩

instance : IsTrans String strLe :=
  ⟨fun a b c => lexLe_trans a.toList b.toList c.toList⟩

theorem cleanup_clients (s : ServerState) (u : String) :
    (cleanup_user s u).state.clients = dictPop s.clients u := rfl

theorem cleanup_pairs_none (s : ServerState) (u : String) (h : dictGet s.pairs u = none) :
    (cleanup_user s u).state.pairs = dictPop s.pairs u := by
  simp only [cleanup_user]
  rw [h]

theorem cleanup_pairs_back (s : ServerState) (u p : String)
    (h : dictGet s.pairs u = some p) (hb : dictGet (dictPop s.pairs u) p = some u) :
    (cleanup_user s u).state.pairs = dictPop (dictPop s.pairs u) p := by
  simp only [cleanup_user]
  rw [h]
  dsimp only
  rw [if_pos hb]

theorem cleanup_pairs_noback (s : ServerState) (u p : String)
    (h : dictGet s.pairs u = some p) (hb : ¬ dictGet (dictPop s.pairs u) p = some u) :
    (cleanup_user s u).state.pairs = dictPop s.pairs u := by
  simp only [cleanup_user]
  rw [h]
  dsimp only
  rw [if_neg hb]

theorem cleanup_pairs_get_self (s : ServerState) (u : String) :
    dictGet (cleanup_user s u).state.pairs u = none := by
  cases hpp : dictGet s.pairs u with
  | none => rw [cleanup_pairs_none s u hpp, dictGet_pop_self]
  | some p =>
      by_cases hb : dictGet (dictPop s.pairs u) p = some u
      · rw [cleanup_pairs_back s u p hpp hb, dictGet_pop]
        by_cases hup : u = p
        · rw [if_pos hup]
        · rw [if_neg hup, dictGet_pop_self]
      · rw [cleanup_pairs_noback s u p hpp hb, dictGet_pop_self]

theorem chatUnpair_clients (s : ServerState) (u : String) :
    (chatUnpair s u).clients = s.clients := by
  simp only [chatUnpair]
  cases hp : dictGet s.pairs u with
  | none => rfl
  | some op => dsimp only; by_cases h : op = "" <;> simp [h]

theorem chatUnpair_none (s : ServerState) (u : String) (h : dictGet s.pairs u = none) :
    chatUnpair s u = s := by
  simp [chatUnpair, h]

theorem chatUnpair_back (s : ServerState) (u op : String) (h : dictGet s.pairs u = some op)
    (h0 : op ≠ "") (hb : dictGet s.pairs op = some u) :
    chatUnpair s u = ⟨s.clients, dictPop (dictPop s.pairs u) op⟩ := by
  simp only [chatUnpair]
  rw [h]
  dsimp only
  rw [if_neg h0, if_pos hb, dictPop_comm]

theorem chatUnpair_noback (s : ServerState) (u op : String) (h : dictGet s.pairs u = some op)
    (h0 : op ≠ "") (hb : ¬ dictGet s.pairs op = some u) :
    chatUnpair s u = ⟨s.clients, dictPop s.pairs u⟩ := by
  simp only [chatUnpair]
  rw [h]
  dsimp only
  rw [if_neg h0, if_neg hb]

theorem pop1_sym (P : List (String × String)) (C : List (String × Sock)) (u : String)
    (hS : ∀ A B, dictGet P A = some B → dictGet P B = some A ∧ dictGet C B ≠ none ∧ A ≠ B)
    (hpu : dictGet P u = none) (A B : String)
    (h : dictGet (dictPop P u) A = some B) :
    dictGet (dictPop P u) B = some A ∧ dictGet C B ≠ none ∧ A ≠ B ∧ B ≠ u := by
  have hAu : A ≠ u := by
    intro hh; rw [hh, dictGet_pop_self] at h; cases h
  rw [dictGet_pop, if_neg hAu] at h
  obtain ⟨h1, h2, h3⟩ := hS A B h
  have hBu : B ≠ u := by
    intro hh; rw [hh, hpu] at h1; cases h1
  exact ⟨by rw [dictGet_pop, if_neg hBu]; exact h1, h2, h3, hBu⟩

theorem pop2_sym (P : List (String × String)) (C : List (String × Sock)) (u pr : String)
    (hS : ∀ A B, dictGet P A = some B → dictGet P B = some A ∧ dictGet C B ≠ none ∧ A ≠ B)
    (hpu : dictGet P u = some pr) (A B : String)
    (h : dictGet (dictPop (dictPop P u) pr) A = some B) :
    dictGet (dictPop (dictPop P u) pr) B = some A ∧ dictGet C B ≠ none ∧ A ≠ B ∧
      B ≠ u ∧ B ≠ pr := by
  have hApr : A ≠ pr := by
    intro hh; rw [hh, dictGet_pop_self] at h; cases h
  rw [dictGet_pop, if_neg hApr] at h
  have hAu : A ≠ u := by
    intro hh; rw [hh, dictGet_pop_self] at h; cases h
  rw [dictGet_pop, if_neg hAu] at h
  obtain ⟨h1, h2, h3⟩ := hS A B h
  have hBu : B ≠ u := by
    intro hh; rw [hh, hpu] at h1
    injection h1 with h1; exact hApr h1.symm
  have hBpr : B ≠ pr := by
    intro hh
    obtain ⟨hb, _, _⟩ := hS u pr hpu
    rw [hh, hb] at h1
    injection h1 with h1; exact hAu h1.symm
  refine ⟨?_, h2, h3, hBu, hBpr⟩
  rw [dictGet_pop, if_neg hBpr, dictGet_pop, if_neg hBu]
  exact h1

theorem pairInv_cleanup (s : ServerState) (u : String) (hS : PairInv s) :
    PairInv (cleanup_user s u).state := by
  obtain ⟨hsym, hN⟩ := hS
  constructor
  · intro A B hAB
    rw [cleanup_clients]
    cases hpp : dictGet s.pairs u with
    | none =>
        rw [cleanup_pairs_none s u hpp] at hAB ⊢
        obtain ⟨h1, h2, h3, h4⟩ := pop1_sym s.pairs s.clients u hsym hpp A B hAB
        exact ⟨h1, by rw [dictGet_pop, if_neg h4]; exact h2, h3⟩
    | some pr =>
        obtain ⟨hb0, _, hne⟩ := hsym u pr hpp
        have hback : dictGet (dictPop s.pairs u) pr = some u := by
          rw [dictGet_pop, if_neg (fun hh : pr = u => hne hh.symm), hb0]
        rw [cleanup_pairs_back s u pr hpp hback] at hAB ⊢
        obtain ⟨h1, h2, h3, h4, h5⟩ := pop2_sym s.pairs s.clients u pr hsym hpp A B hAB
        exact ⟨h1, by rw [dictGet_pop, if_neg h4]; exact h2, h3⟩
  · rw [cleanup_clients, dictGet_pop]
    by_cases h : ("" : String) = u
    · rw [if_pos h]
    · rw [if_neg h]; exact hN

theorem pairInv_connect (s : ServerState) (n : String) (c : Sock) (hS : PairInv s) :
    PairInv (handle_entry s n c).1.state := by
  simp only [handle_entry]
  by_cases h0 : pyStrip n = ""
  · rw [if_pos h0]; exact hS
  · rw [if_neg h0]
    cases hd : dictGet s.clients (pyStrip n) with
    | some k => exact pairInv_cleanup s (pyStrip n) hS
    | none =>
        obtain ⟨hsym, hN⟩ := hS
        constructor
        · intro A B hAB
          obtain ⟨h1, h2, h3⟩ := hsym A B hAB
          refine ⟨h1, ?_, h3⟩
          rw [dictGet_set]
          by_cases hh : pyStrip n = B
          · rw [if_pos hh]; exact fun h => by cases h
          · rw [if_neg hh]; exact h2
        · show dictGet (dictSet s.clients (pyStrip n) c) "" = none
          rw [dictGet_set, if_neg h0]
          exact hN

theorem pairInv_leave (s : ServerState) (u : String) (c : Sock) (hS : PairInv s) :
    PairInv (handle_leave s u c).state := by
  obtain ⟨hsym, hN⟩ := hS
  simp only [handle_leave]
  cases hp : dictGet s.pairs u with
  | none => exact ⟨hsym, hN⟩
  | some pr =>
      dsimp only
      by_cases h0 : pr = ""
      · rw [if_pos h0]; exact ⟨hsym, hN⟩
      · rw [if_neg h0]
        obtain ⟨hb0, _, hne⟩ := hsym u pr hp
        rw [if_pos hb0]
        dsimp only
        constructor
        · intro A B hAB
          rw [dictPop_comm] at hAB ⊢
          obtain ⟨h1, h2, h3, _, _⟩ := pop2_sym s.pairs s.clients u pr hsym hp A B hAB
          exact ⟨h1, h2, h3⟩
        · exact hN

theorem pairInv_message (s : ServerState) (u : String) (c : Sock) (m : String)
    (hS : PairInv s) : PairInv (route_message s u c m).state := by
  obtain ⟨hsym, hN⟩ := hS
  simp only [route_message]
  cases hp : dictGet s.pairs u with
  | none => exact ⟨hsym, hN⟩
  | some pr =>
      dsimp only
      by_cases h0 : pr = ""
      · rw [if_pos h0]; exact ⟨hsym, hN⟩
      · rw [if_neg h0]
        obtain ⟨_, h2, _⟩ := hsym u pr hp
        cases hc : dictGet s.clients pr with
        | none => exact absurd hc h2
        | some ps => exact ⟨hsym, hN⟩

theorem pairInv_chat (s : ServerState) (u : String) (c : Sock) (a : String)
    (hS : PairInv s) (hu : dictGet s.clients u ≠ none) :
    PairInv (handle_chat s u c (some a)).state := by
  obtain ⟨hsym, hN⟩ := hS
  simp only [handle_chat]
  by_cases h0 : pyStrip a = ""
  · rw [if_pos h0]; exact ⟨hsym, hN⟩
  · rw [if_neg h0]
    by_cases h1 : pyStrip a = u
    · rw [if_pos h1]; exact ⟨hsym, hN⟩
    · rw [if_neg h1]
      cases hts : get_socket s (pyStrip a) with
      | none => exact ⟨hsym, hN⟩
      | some ts =>
          dsimp only
          have htc : dictGet s.clients (pyStrip a) ≠ none := by
            rw [show dictGet s.clients (pyStrip a) = some ts from hts]
            exact fun hh => by cases hh
          have hs1c : (chatUnpair s u).clients = s.clients := chatUnpair_clients s u
          have hstep : dictGet (chatUnpair s u).pairs u = none ∧
              ∀ A B, dictGet (chatUnpair s u).pairs A = some B →
                dictGet (chatUnpair s u).pairs B = some A ∧
                dictGet s.clients B ≠ none ∧ A ≠ B := by
            cases hp : dictGet s.pairs u with
            | none => rw [chatUnpair_none s u hp]; exact ⟨hp, hsym⟩
            | some op =>
                obtain ⟨hb0, hcop, hneop⟩ := hsym u op hp
                have hop0 : op ≠ "" := fun hh => hcop (hh ▸ hN)
                rw [chatUnpair_back s u op hp hop0 hb0]
                dsimp only
                constructor
                · rw [dictGet_pop, if_neg hneop, dictGet_pop_self]
                · intro A B hAB
                  obtain ⟨g1, g2, g3, _, _⟩ :=
                    pop2_sym s.pairs s.clients u op hsym hp A B hAB
                  exact ⟨g1, g2, g3⟩
          obtain ⟨hu1, hsym1⟩ := hstep
          cases htp : dictGet (chatUnpair s u).pairs (pyStrip a) with
          | some tp =>
              obtain ⟨g1, g2, _⟩ := hsym1 (pyStrip a) tp htp
              have htp0 : tp ≠ "" := fun hh => g2 (hh ▸ hN)
              have htpu : tp ≠ u := fun hh => by rw [hh, hu1] at g1; cases g1
              dsimp only
              rw [if_pos ⟨htp0, htpu⟩]
              refine ⟨fun A B hAB => ?_, by rw [hs1c]; exact hN⟩
              rw [hs1c]
              exact hsym1 A B hAB
          | none =>
              dsimp only
              simp only [set_pair]
              constructor
              · intro A B hAB
                dsimp only at hAB ⊢
                rw [dictGet_set] at hAB
                by_cases hAt : pyStrip a = A
                · rw [if_pos hAt] at hAB
                  injection hAB with hAB
                  subst hAB
                  refine ⟨?_, by rw [hs1c]; exact hu, fun hh => h1 (hAt.trans hh)⟩
                  rw [dictGet_set, if_neg h1, dictGet_set, if_pos rfl, hAt]
                · rw [if_neg hAt, dictGet_set] at hAB
                  by_cases hAu : u = A
                  · rw [if_pos hAu] at hAB
                    injection hAB with hAB
                    subst hAB
                    refine ⟨?_, by rw [hs1c]; exact htc,
                      fun hh => h1 (hAu.trans hh).symm⟩
                    rw [dictGet_set, if_pos rfl, hAu]
                  · rw [if_neg hAu] at hAB
                    obtain ⟨g1, g2, g3⟩ := hsym1 A B hAB
                    have hBt : B ≠ pyStrip a := fun hh => by rw [hh, htp] at g1; cases g1
                    have hBu : B ≠ u := fun hh => by rw [hh, hu1] at g1; cases g1
                    refine ⟨?_, by rw [hs1c]; exact g2, g3⟩
                    rw [dictGet_set, if_neg (fun hh : pyStrip a = B => hBt hh.symm),
                      dictGet_set, if_neg (fun hh : u = B => hBu hh.symm)]
                    exact g1
              · dsimp only
                rw [hs1c]
                exact hN

theorem pairInv_reachableReg (s : ServerState) (h : ReachableReg s) : PairInv s := by
  induction h with
  | init =>
      refine ⟨fun A B hAB => ?_, rfl⟩
      simp [initState, dictGet] at hAB
  | connect s n c hr ih => exact pairInv_connect s n c ih
  | chat s u c a hr hu ih => exact pairInv_chat s u c a ih hu
  | leave s u c hr hu ih => exact pairInv_leave s u c ih
  | message s u c m hr hu ih => exact pairInv_message s u c m ih
  | teardown s u hr ih => exact pairInv_cleanup s u ih

/-!
## Claim theorems
-/

/-- C1: a connection supplying the non-empty, already-taken name `alice` is
rejected — but the operation is not side-effect free: the `finally` block's
`cleanup_user("alice")` deregisters the *existing* `alice` session, closes
its socket (1), destroys its pairing with `carol`, and notifies `carol`.
The Registry and Pairing Table do not stay unchanged. -/
theorem C1_duplicate_registration_side_effects :
    (handle_entry stFive "alice" 6).1.sent =
      [(6, "[SERVER] Username already taken. Bye."),
       (2, "[SERVER] alice disconnected. Chat closed.")] ∧
    (handle_entry stFive "alice" 6).2 = none ∧
    get_socket (handle_entry stFive "alice" 6).1.state "alice" = none ∧
    (handle_entry stFive "alice" 6).1.closed = [1] ∧
    get_partner (handle_entry stFive "alice" 6).1.state "carol" = none ∧
    get_socket stFive "alice" = some 1 ∧
    get_partner stFive "alice" = some "carol" ∧
    get_partner stFive "carol" = some "alice" := by
  decide

/-- C2 (counterexample): the `/chat` pairing transition is not one critical
section.  From the pre-state `stFive`, `alice`'s `/chat eve` passes through
`chatUnpair` — the state when the guard is released after the unpair block
(server.py line 139) and before the busy-check lock reacquisition (line
147) — and there `alice` is observably unpaired, which matches neither the
pre-state (`alice` paired with `carol`) nor the post-state (`alice` paired
with `eve`): a worker running `get_partner` in that window observes an
intermediate state of the Pairing Table. -/
theorem C2_chat_not_atomic_counterexample :
    get_partner stFive "alice" = some "carol" ∧
    get_partner (chatUnpair stFive "alice") "alice" = none ∧
    get_partner (handle_chat stFive "alice" 1 (some "eve")).state "alice" = some "eve" ∧
    get_partner (chatUnpair stFive "alice") "alice" ≠ get_partner stFive "alice" ∧
    get_partner (chatUnpair stFive "alice") "alice" ≠
      get_partner (handle_chat stFive "alice" 1 (some "eve")).state "alice" := by
  decide

/-- C2 (amended): in any state where the sender has a (truthy) partner and
the `/chat` target is a fresh registered user, the transition's intermediate
state after the unpair block shows the sender unpaired — different from the
pre-state's partner and from the post-state's partner. -/
theorem C2_chat_midstate_observable (s : ServerState) (u op t : String) (c ts : Sock)
    (hpu : dictGet s.pairs u = some op) (hop0 : op ≠ "")
    (ht : pyStrip t = t) (ht0 : t ≠ "") (htu : t ≠ u)
    (hts : get_socket s t = some ts)
    (hnt : dictGet s.pairs t = none) :
    get_partner s u = some op ∧
    get_partner (chatUnpair s u) u = none ∧
    get_partner (handle_chat s u c (some t)).state u = some t ∧
    get_partner (chatUnpair s u) u ≠ get_partner s u ∧
    (t ≠ op → get_partner (chatUnpair s u) u ≠
      get_partner (handle_chat s u c (some t)).state u) := by
  have hmid : get_partner (chatUnpair s u) u = none := by
    simp only [chatUnpair]
    rw [hpu]
    dsimp only
    rw [if_neg hop0]
    by_cases hb : dictGet s.pairs op = some u <;>
      simp [hb, get_partner, dictGet_pop_self]
  have hmid1 : dictGet (chatUnpair s u).pairs t = none := by
    simp only [chatUnpair]
    rw [hpu]
    dsimp only
    rw [if_neg hop0]
    by_cases hb : dictGet s.pairs op = some u
    · rw [if_pos hb]
      dsimp only
      rw [dictGet_pop, if_neg htu, dictGet_pop]
      by_cases hto : t = op
      · rw [if_pos hto]
      · rw [if_neg hto, hnt]
    · rw [if_neg hb]
      dsimp only
      rw [dictGet_pop, if_neg htu, hnt]
  have hpost : get_partner (handle_chat s u c (some t)).state u = some t := by
    simp only [handle_chat, ht]
    rw [if_neg ht0, if_neg htu, hts]
    dsimp only
    rw [hmid1]
    dsimp only
    show dictGet (dictSet (dictSet (chatUnpair s u).pairs u t) t u) u = some t
    rw [dictGet_set, if_neg (fun hh : t = u => htu hh), dictGet_set, if_pos rfl]
  refine ⟨hpu, hmid, hpost, ?_, fun hto => ?_⟩
  · rw [hmid]; simp [get_partner, hpu]
  · rw [hmid, hpost]; exact fun hh => by cases hh

theorem C2_chat_midstate_observable_witness :
    get_partner stFive "alice" = some "carol" ∧
    get_partner (chatUnpair stFive "alice") "alice" = none ∧
    get_partner (handle_chat stFive "alice" 1 (some "eve")).state "alice" = some "eve" :=
  have h := C2_chat_midstate_observable stFive "alice" "carol" "eve" 1 5
    rfl (by decide) rfl (by decide) (by decide) rfl rfl
  ⟨h.1, h.2.1, h.2.2.1⟩

/-- C3 (counterexample): without that discipline the invariant fails on a
concrete reachable run.  In `symTrace`, the duplicate-registration cleanup
removes the live `alice` while her worker continues; her `/chat bob` then
installs a pair, and a later message from `bob` pops only `bob`'s side —
leaving `get_partner alice = bob` with `bob` still registered but
`get_partner bob ≠ alice`. -/
theorem C3_pairing_symmetry_counterexample :
    ReachableFree (runOps symTrace) ∧
    get_partner (runOps symTrace) "alice" = some "bob" ∧
    get_socket (runOps symTrace) "bob" ≠ none ∧
    get_partner (runOps symTrace) "bob" ≠ some "alice" :=
  ⟨⟨symTrace, rfl⟩, by decide, by decide, by decide⟩

/-- C3 (amended): pairing symmetry holds in every state reachable under the
registration discipline — whenever a command or message operation is issued
only by a currently registered identity, `get_partner A = B` implies that
`get_partner B = A` or B is no longer registered. -/
theorem C3_pairing_symmetry_registered (s : ServerState) (h : ReachableReg s)
    (A B : String) (hAB : get_partner s A = some B) :
    get_partner s B = some A ∨ get_socket s B = none :=
  Or.inl ((pairInv_reachableReg s h).1 A B hAB).1

theorem C3_pairing_symmetry_registered_witness :
    get_partner (applyOp (applyOp (applyOp initState (.connect "alice" 1))
        (.connect "bob" 2)) (.chat "alice" 1 "bob")) "bob" = some "alice" ∨
    get_socket (applyOp (applyOp (applyOp initState (.connect "alice" 1))
        (.connect "bob" 2)) (.chat "alice" 1 "bob")) "bob" = none :=
  C3_pairing_symmetry_registered _
    (.chat _ "alice" 1 "bob" (.connect _ "bob" 2 (.connect _ "alice" 1 .init))
      (by decide))
    "alice" "bob" (by decide)

/-- C4: teardown of a mutually paired, connected session removes the user
from the Registry and both pairing entries, notifies the former partner
exactly once, and the departed name no longer appears in any `/users`
listing. -/
theorem C4_teardown_cleanup (s : ServerState) (u p : String) (ps : Sock)
    (hup : dictGet s.pairs u = some p)
    (hpu : dictGet s.pairs p = some u)
    (hne : p ≠ u)
    (hps : dictGet s.clients p = some ps) :
    cleanup_user s u =
      ⟨⟨dictPop s.clients u, dictPop (dictPop s.pairs u) p⟩,
       [(ps, "[SERVER] " ++ u ++ " disconnected. Chat closed.")],
       match dictGet s.clients u with
       | some sk => [sk]
       | none => []⟩ ∧
    get_partner (cleanup_user s u).state p = none ∧
    get_socket (cleanup_user s u).state u = none ∧
    (∀ x, u ∉ list_users (cleanup_user s u).state x) := by
  have hb : dictGet (dictPop s.pairs u) p = some u := by
    rw [dictGet_pop, if_neg hne, hpu]
  have hcl : dictGet (dictPop s.clients u) p = some ps := by
    rw [dictGet_pop, if_neg hne, hps]
  have heffect : cleanup_user s u =
      ⟨⟨dictPop s.clients u, dictPop (dictPop s.pairs u) p⟩,
       [(ps, "[SERVER] " ++ u ++ " disconnected. Chat closed.")],
       match dictGet s.clients u with
       | some sk => [sk]
       | none => []⟩ := by
    simp only [cleanup_user]
    rw [hup]
    dsimp only
    rw [if_pos hb, hcl]
  refine ⟨heffect, ?_, ?_, ?_⟩
  · rw [heffect]
    show dictGet (dictPop (dictPop s.pairs u) p) p = none
    rw [dictGet_pop_self]
  · rw [heffect]
    show dictGet (dictPop s.clients u) u = none
    rw [dictGet_pop_self]
  · intro x hx
    rw [heffect] at hx
    have hmem := (List.perm_insertionSort strLe _).subset hx
    have := List.of_mem_filter hmem
    have hk := List.mem_filter.mp hmem |>.1
    have : dictGet (dictPop s.clients u) u ≠ none := by
      rw [← mem_dictKeys_iff]
      exact hk
    exact this (dictGet_pop_self _ _)

theorem C4_teardown_cleanup_witness :
    cleanup_user stFive "alice" =
      ⟨⟨[("carol", 2), ("bob", 3), ("dave", 4), ("eve", 5)],
        [("bob", "dave"), ("dave", "bob")]⟩,
       [(2, "[SERVER] alice disconnected. Chat closed.")], [1]⟩ ∧
    get_partner (cleanup_user stFive "alice").state "carol" = none ∧
    "alice" ∉ list_users (cleanup_user stFive "alice").state "carol" := by
  have h := C4_teardown_cleanup stFive "alice" "carol" 2 rfl rfl (by decide) rfl
  exact ⟨by rw [h.1]; decide, h.2.1, h.2.2.2 "carol"⟩

/-- C5: when a paired sender issues `/chat` at a valid target, the old
pairing is dissolved and both notices are sent before the busy check; if the
target is then refused as busy, the sender ends the command unpaired. -/
theorem C5_unpair_before_busy_check (s : ServerState) (u op t tp : String) (c ops ts : Sock)
    (hpu : dictGet s.pairs u = some op) (hop0 : op ≠ "")
    (hback : dictGet s.pairs op = some u)
    (hops : dictGet s.clients op = some ops)
    (ht : pyStrip t = t) (ht0 : t ≠ "") (htu : t ≠ u) (htop : t ≠ op)
    (hts : get_socket s t = some ts)
    (htp : dictGet s.pairs t = some tp) (htp0 : tp ≠ "") (htpu : tp ≠ u) :
    handle_chat s u c (some t) =
      ⟨⟨s.clients, dictPop (dictPop s.pairs op) u⟩,
       [(ops, "[SERVER] " ++ u ++ " left the chat."),
        (c, "[SERVER] Left previous chat with " ++ op ++ "."),
        (c, "[SERVER] '" ++ t ++ "' is already chatting with '" ++ tp ++ "'.")], []⟩ ∧
    get_partner (handle_chat s u c (some t)).state u = none ∧
    get_partner (handle_chat s u c (some t)).state op = none := by
  have hunpair : chatUnpair s u = ⟨s.clients, dictPop (dictPop s.pairs op) u⟩ := by
    simp only [chatUnpair]
    rw [hpu]
    dsimp only
    rw [if_neg hop0, if_pos hback]
  have htp1 : dictGet (dictPop (dictPop s.pairs op) u) t = some tp := by
    rw [dictGet_pop, if_neg htu, dictGet_pop, if_neg htop, htp]
  have heffect : handle_chat s u c (some t) =
      ⟨⟨s.clients, dictPop (dictPop s.pairs op) u⟩,
       [(ops, "[SERVER] " ++ u ++ " left the chat."),
        (c, "[SERVER] Left previous chat with " ++ op ++ "."),
        (c, "[SERVER] '" ++ t ++ "' is already chatting with '" ++ tp ++ "'.")], []⟩ := by
    simp only [handle_chat, ht]
    rw [if_neg ht0, if_neg htu, hts]
    dsimp only
    rw [hunpair]
    dsimp only
    rw [htp1]
    dsimp only
    rw [if_pos ⟨htp0, fun hh => htpu hh⟩]
    simp [get_partner, hpu, if_neg hop0, hops]
  refine ⟨heffect, ?_, ?_⟩ <;> rw [heffect]
  · show dictGet (dictPop (dictPop s.pairs op) u) u = none
    rw [dictGet_pop_self]
  · show dictGet (dictPop (dictPop s.pairs op) u) op = none
    rw [dictGet_pop]
    by_cases h : op = u
    · rw [if_pos h]
    · rw [if_neg h, dictGet_pop_self]

theorem C5_unpair_before_busy_check_witness :
    handle_chat stFive "alice" 1 (some "bob") =
      ⟨⟨stFive.clients, [("bob", "dave"), ("dave", "bob")]⟩,
       [(2, "[SERVER] alice left the chat."),
        (1, "[SERVER] Left previous chat with carol."),
        (1, "[SERVER] 'bob' is already chatting with 'dave'.")], []⟩ ∧
    get_partner (handle_chat stFive "alice" 1 (some "bob")).state "alice" = none := by
  have h := C5_unpair_before_busy_check stFive "alice" "carol" "bob" "dave" 1 2 3
    rfl (by decide) rfl rfl rfl (by decide) (by decide) (by decide) rfl rfl
    (by decide) (by decide)
  exact ⟨by rw [h.1]; decide, h.2.1⟩

/-- C6: an unpaired sender asking to chat with a target that is mutually
paired with a third user is refused, with no change to any state. -/
theorem C6_busy_target_refused (s : ServerState) (u t d : String) (c ts : Sock)
    (hcu : dictGet s.pairs u = none)
    (ht : pyStrip t = t) (ht0 : t ≠ "") (htu : t ≠ u)
    (hts : get_socket s t = some ts)
    (hd : dictGet s.pairs t = some d) (hd0 : d ≠ "") (hdu : d ≠ u)
    (hdt : dictGet s.pairs d = some t) :
    handle_chat s u c (some t) =
      ⟨s, [(c, "[SERVER] '" ++ t ++ "' is already chatting with '" ++ d ++ "'.")], []⟩ ∧
    get_partner (handle_chat s u c (some t)).state t = some d ∧
    get_partner (handle_chat s u c (some t)).state d = some t ∧
    get_partner (handle_chat s u c (some t)).state u = none := by
  have heffect : handle_chat s u c (some t) =
      ⟨s, [(c, "[SERVER] '" ++ t ++ "' is already chatting with '" ++ d ++ "'.")], []⟩ := by
    simp only [handle_chat, ht]
    rw [if_neg ht0, if_neg htu, hts]
    dsimp only
    simp only [chatUnpair, hcu]
    rw [hd]
    dsimp only
    rw [if_pos ⟨hd0, fun hh => hdu hh⟩]
    simp [get_partner, hcu]
  refine ⟨heffect, ?_, ?_, ?_⟩ <;> rw [heffect] <;> [exact hd; exact hdt; exact hcu]

theorem C6_busy_target_refused_witness :
    handle_chat stFive "eve" 5 (some "bob") =
      ⟨stFive, [(5, "[SERVER] 'bob' is already chatting with 'dave'.")], []⟩ ∧
    get_partner (handle_chat stFive "eve" 5 (some "bob")).state "bob" = some "dave" ∧
    get_partner (handle_chat stFive "eve" 5 (some "bob")).state "dave" = some "bob" ∧
    get_partner (handle_chat stFive "eve" 5 (some "bob")).state "eve" = none :=
  C6_busy_target_refused stFive "eve" "bob" "dave" 5 3 rfl (by decide) (by decide)
    (by decide) rfl rfl (by decide) (by decide) rfl

/-- C7: routing of a plain chat line. -/
theorem C7_route_message_cases (s : ServerState) (u : String) (c : Sock) (m : String) :
    (dictGet s.pairs u = none →
      route_message s u c m =
        ⟨s, [(c, "[SERVER] You're not in a chat. Use /users then /chat <username>.")], []⟩) ∧
    (∀ p, dictGet s.pairs u = some p → p ≠ "" → dictGet s.clients p = none →
      route_message s u c m =
        ⟨⟨s.clients, dictPop s.pairs u⟩,
         [(c, "[SERVER] Partner disconnected. Chat closed.")], []⟩) ∧
    (∀ p ps, dictGet s.pairs u = some p → p ≠ "" → dictGet s.clients p = some ps →
      route_message s u c m = ⟨s, [(ps, u ++ ": " ++ m)], []⟩) := by
  refine ⟨fun h => ?_, fun p hp hne hc => ?_, fun p ps hp hne hc => ?_⟩ <;>
    simp [route_message, *]

theorem C7_route_message_cases_witness :
    route_message stFive "alice" 1 "hello" = ⟨stFive, [(2, "alice: hello")], []⟩ ∧
    route_message stFive "eve" 5 "hi" =
      ⟨stFive, [(5, "[SERVER] You're not in a chat. Use /users then /chat <username>.")], []⟩ :=
  ⟨(C7_route_message_cases stFive "alice" 1 "hello").2.2 "carol" 2 rfl (by decide) rfl,
   (C7_route_message_cases stFive "eve" 5 "hi").1 rfl⟩

/-- C8: teardown is idempotent. -/
theorem C8_cleanup_idempotent (s : ServerState) (u : String) :
    cleanup_user (cleanup_user s u).state u = ⟨(cleanup_user s u).state, [], []⟩ := by
  have hc : dictGet (cleanup_user s u).state.clients u = none := by
    rw [cleanup_clients, dictGet_pop_self]
  have hp : dictGet (cleanup_user s u).state.pairs u = none := cleanup_pairs_get_self s u
  conv_lhs => rw [cleanup_user]
  rw [hc, hp]
  simp [dictPop_noop _ _ hc, dictPop_noop _ _ hp]

/-- C9: `/users` replies with exactly the other registered identities,
lexicographically sorted and comma-joined (or a no-other-users notice), and
changes no state. -/
theorem C9_users_listing (s : ServerState) (u : String) (c : Sock)
    (hnd : (dictKeys s.clients).Nodup) :
    (∀ x, x ∈ list_users s u ↔ (dictGet s.clients x ≠ none ∧ x ≠ u)) ∧
    (list_users s u).Sorted strLe ∧
    (list_users s u).Nodup ∧
    handle_users s u c =
      ⟨s, [(c, if (list_users s u).isEmpty then "[SERVER] No other users online."
               else "[SERVER] Online: " ++ String.intercalate ", " (list_users s u))], []⟩ := by
  refine ⟨fun x => ?_, ?_, ?_, ?_⟩
  · rw [list_users, (List.perm_insertionSort strLe _).mem_iff, List.mem_filter,
      mem_dictKeys_iff]
    simp
  · exact List.sorted_insertionSort strLe _
  · exact (List.perm_insertionSort strLe _).nodup_iff.mpr (hnd.filter _)
  · rw [handle_users]
    by_cases h : (list_users s u).isEmpty <;> simp [h]

theorem C9_users_listing_witness :
    (("bob" ∈ list_users stFive "alice") ↔
      (dictGet stFive.clients "bob" ≠ none ∧ "bob" ≠ "alice")) ∧
    (list_users stFive "alice").Sorted strLe ∧
    handle_users stFive "alice" 1 =
      ⟨stFive, [(1, if (list_users stFive "alice").isEmpty
                    then "[SERVER] No other users online."
                    else "[SERVER] Online: " ++
                      String.intercalate ", " (list_users stFive "alice"))], []⟩ :=
  have h := C9_users_listing stFive "alice" 1 (by decide)
  ⟨h.1 "bob", h.2.1, h.2.2.2⟩

/-- C10: only a line that is empty after stripping the trailing newline is
skipped; a whitespace-only line is routed as a chat message. -/
theorem C10_whitespace_line_routed (s : ServerState) (u : String) (c : Sock) :
    (∀ line, rstripNl line = "" → handle_line s u c line = (⟨s, [], []⟩, .cont)) ∧
    (∀ line, rstripNl line ≠ "" → startsSlash (rstripNl line) = false →
      handle_line s u c line = (route_message s u c (rstripNl line), .cont)) ∧
    handle_line s u c " \n" = (route_message s u c " ", .cont) ∧
    (∀ p ps, dictGet s.pairs u = some p → p ≠ "" → dictGet s.clients p = some ps →
      (handle_line s u c " \n").1.sent = [(ps, u ++ ": " ++ " ")]) ∧
    (dictGet s.pairs u = none →
      (handle_line s u c " \n").1.sent =
        [(c, "[SERVER] You're not in a chat. Use /users then /chat <username>.")]) := by
  have hblank : ∀ line, rstripNl line = "" → handle_line s u c line = (⟨s, [], []⟩, .cont) := by
    intro line h
    simp [handle_line, h]
  have hroute : ∀ line, rstripNl line ≠ "" → startsSlash (rstripNl line) = false →
      handle_line s u c line = (route_message s u c (rstripNl line), .cont) := by
    intro line h1 h2
    simp [handle_line, h1, h2]
  have hws : handle_line s u c " \n" = (route_message s u c " ", .cont) := by
    have : rstripNl " \n" = " " := by decide
    rw [hroute " \n" (by rw [this]; decide) (by rw [this]; decide), this]
  refine ⟨hblank, hroute, hws, fun p ps hp hne hc => ?_, fun h => ?_⟩ <;>
    rw [hws] <;> simp [route_message, *]

theorem C10_whitespace_line_routed_witness :
    handle_line stFive "alice" 1 " \n" = (route_message stFive "alice" 1 " ", .cont) ∧
    (handle_line stFive "alice" 1 " \n").1.sent = [(2, "alice: " ++ " ")] ∧
    (handle_line stFive "eve" 5 " \n").1.sent =
      [(5, "[SERVER] You're not in a chat. Use /users then /chat <username>.")] ∧
    handle_line stFive "alice" 1 "\n" = (⟨stFive, [], []⟩, .cont) :=
  ⟨(C10_whitespace_line_routed stFive "alice" 1).2.2.1,
   (C10_whitespace_line_routed stFive "alice" 1).2.2.2.1 "carol" 2 rfl (by decide) rfl,
   (C10_whitespace_line_routed stFive "eve" 5).2.2.2.2 rfl,
   (C10_whitespace_line_routed stFive "alice" 1).1 "\n" (by decide)⟩
